import Mathlib

/-!
Verification of the RfNews_toDB ingestion engine.

Shallow embedding of the core of the repository:
  * src/news_fetcher.py   — classification, retry wrapper, pagination and
    backfill orchestrators, effective page size;
  * src/database_manager.py — insert, bulk insert, similarity based
    duplicate check, fetch log completion;
  * main.py               — run wrappers that drive the orchestrators and
    record the fetch log.

Timestamps are modelled as integers (seconds); the one time unit that the
orchestrators add or subtract is 1.  Cosine similarity scores are modelled
as rationals, with the TF-IDF vectorizer of scikit-learn abstracted into an
oracle argument (the code treats its output opaquely: it only takes the
maximum and compares with the threshold).  DataFrames are modelled as a
list of rows together with booleans telling whether the storyId and the
versionCreated columns are present, which is the only column information
the orchestrator code inspects.
-/

/-! ### Text utilities (news_fetcher.py keyword detection)

Python scans text with `re.search` using word boundaries.  A word
character here is an ASCII alphanumeric, an underscore, or any non-ASCII
character (the CJK trigger terms of the source consist of word characters
in the Python regex semantics). -/

/-- Model of a Python regex word character for the texts involved. -/
def isWordChar (c : Char) : Bool :=
  c.isAlphanum || c == '_' || decide (c.val ≥ 0x80)

/-- ASCII lower casing, matching `str.lower()` on the texts involved. -/
def asciiLower (s : String) : String :=
  String.mk (s.data.map Char.toLower)

/-- Does `kw` occur in `text` starting at position `i`? -/
def sublistAt (text kw : List Char) (i : Nat) : Bool :=
  List.take kw.length (List.drop i text) == kw

/-- Word boundaries around an occurrence of `kw` at position `i`:
the character before (if any) and the character after (if any) are not
word characters.  This models `\x5cb(...)\x5cb` for keywords that start
and end with word characters. -/
def boundaryAt (text kw : List Char) (i : Nat) : Bool :=
  (i == 0 || !(isWordChar (List.getD text (i - 1) ' '))) &&
  (decide (i + kw.length ≥ text.length) || !(isWordChar (List.getD text (i + kw.length) ' ')))

/-- `re.search` with word boundaries: some occurrence with boundaries. -/
def wordBoundaryMatch (text kw : List Char) : Bool :=
  (List.range (text.length + 1)).any (fun i => sublistAt text kw i && boundaryAt text kw i)

/-- Alternation of keywords under word-boundary search. -/
def anyKeyword (text : String) (kws : List String) : Bool :=
  kws.any (fun kw => wordBoundaryMatch text.data kw.data)

/-- Plain substring search (`re.search` without word boundaries). -/
def containsSub (text kw : List Char) : Bool :=
  (List.range (text.length + 1)).any (fun i => sublistAt text kw i)

/-- The NY market summary rule of news_fetcher.py line 271: substring
search on the (lower cased) headline only, over the listed variants. -/
def nyMarketMatch (headline : String) : Bool :=
  ["ny市場サマリー", "ｎｙ市場サマリー", "ＮＹ市場サマリー"].any
    (fun kw => containsSub headline.data kw.data)

/-! ### Classifier (news_fetcher.py, fetch_headlines lines 222-278) -/

/-- The category rules, in source order.  Each rule takes the lower cased
full text (headline plus body) and the lower cased headline, mirroring
lines 240-273 of news_fetcher.py. -/
def catRules : List (String × (String → String → Bool)) :=
  [("COPPER", fun full _ => anyKeyword full ["copper", "銅"]),
   ("ALUMINIUM", fun full _ => anyKeyword full ["aluminum", "aluminium", "アルミ"]),
   ("ZINC", fun full _ => anyKeyword full ["zinc", "亜鉛"]),
   ("LEAD", fun full _ => anyKeyword full ["lead", "鉛"]),
   ("NICKEL", fun full _ => anyKeyword full ["nickel", "ニッケル"]),
   ("TIN", fun full _ => anyKeyword full ["tin", "スズ", "錫"]),
   ("EQUITY", fun full _ => anyKeyword full
      ["equity", "equities", "stock", "stocks", "share", "shares", "株式", "株価"]),
   ("FOREX", fun full _ => anyKeyword full
      ["forex", "fx", "currency", "currencies", "exchange rate", "為替", "外国為替", "通貨"]),
   ("COMMODITIES", fun full _ => anyKeyword full
      ["commodity", "commodities", "商品", "コモディティ"]),
   ("NY_MARKET", fun _ hl => nyMarketMatch hl)]

/-- The requested category is appended first when the fetch was scoped to
one (news_fetcher.py lines 229-231). -/
def requestedCats : Option String → List String
  | some c => [c]
  | none => []

/-- The cascade of guarded appends of fetch_headlines lines 240-273: a
category name is appended when its rule fires and it is not yet present. -/
def addCats (full hl : String) : List (String × (String → String → Bool)) →
    List String → List String
  | [], acc => acc
  | r :: rs, acc =>
      if r.2 full hl && !(acc.contains r.1) then addCats full hl rs (acc ++ [r.1])
      else addCats full hl rs acc

/-- Category detection for one item: the requested category first, then the
rules in source order (news_fetcher.py lines 226-276). -/
def detectCategories (copt : Option String) (headline body : String) : List String :=
  let hl := asciiLower headline
  let full := hl ++ " " ++ asciiLower body
  addCats full hl catRules (requestedCats copt)

/-- The comma-joined category value attached to the item
(news_fetcher.py line 276). -/
def detectedCategoryString (copt : Option String) (headline body : String) : String :=
  String.intercalate "," (detectCategories copt headline body)

/-! ### Effective page size (news_fetcher.py, fetch_headlines lines 169-171) -/

/-- The count sent to the remote API: `count or default_count`, clamped by
`max_count`.  A requested count of 0 is falsy in Python and picks the
default, exactly as `count or self.fetch_config.get('default_count', 100)`
does. -/
def effectiveCount (count : Option Nat) (defaultCount maxCount : Nat) : Nat :=
  let countVal := match count with
    | some c => if c = 0 then defaultCount else c
    | none => defaultCount
  min countVal maxCount

/-! ### Retry wrapper (news_fetcher.py, fetch_headlines_with_retry) -/

/-- Outcome of one attempt of the wrapped call: a value, the failure value
None (fetch_headlines catches its own errors and returns None), or an
exception escaping fetch_headlines. -/
inductive AttemptOutcome (α : Type) where
  | ok (value : α)
  | failValue
  | exc (msg : String)

/-- Observable trace of one invocation of the retry wrapper: the returned
value, the backoff sleeps performed (in order), and the log_retry records
(attempt number, cause). -/
structure RetryTrace (α : Type) where
  result : Option α
  sleeps : List Nat
  retryLogs : List (Nat × String)
deriving DecidableEq

/-- The loop of fetch_headlines_with_retry lines 313-330, indexed by the
attempt counter `i` of `for attempt in range(max_retries)`.  A None result
falls through to the next attempt with no log and no sleep; an exception is
logged via log_retry, then either backed off with delay
`retry_delay * 2 ^ attempt` or, on the last attempt, turned into a None
return. -/
def retryLoop (outcomes : Nat → AttemptOutcome α) (maxRetries retryDelay : Nat) :
    Nat → Nat → List Nat → List (Nat × String) → RetryTrace α
  | 0, _, sleeps, logs => ⟨none, sleeps, logs⟩
  | remaining + 1, i, sleeps, logs =>
    match outcomes i with
    | .ok v => ⟨some v, sleeps, logs⟩
    | .failValue => retryLoop outcomes maxRetries retryDelay remaining (i + 1) sleeps logs
    | .exc m =>
        if i < maxRetries - 1 then
          retryLoop outcomes maxRetries retryDelay remaining (i + 1)
            (sleeps ++ [retryDelay * 2 ^ i]) (logs ++ [(i + 1, m)])
        else
          ⟨none, sleeps, logs ++ [(i + 1, m)]⟩

/-- fetch_headlines_with_retry, as a function of the sequence of attempt
outcomes: the loop body runs at most maxRetries times, starting at attempt
index 0. -/
def fetchHeadlinesWithRetry (outcomes : Nat → AttemptOutcome α)
    (maxRetries retryDelay : Nat) : RetryTrace α :=
  retryLoop outcomes maxRetries retryDelay maxRetries 0 [] []

/-- The log_retry record attempt index j produces: exceptions are logged
as (attempt number, cause), other outcomes leave no record. -/
def excLog (outcomes : Nat → AttemptOutcome α) (j : Nat) : Option (Nat × String) :=
  match outcomes j with
  | .exc msg => some (j + 1, msg)
  | _ => none

/-- The backoff sleep attempt index j produces: a non-final exception
sleeps retryDelay * 2 ^ j, everything else does not sleep. -/
def excSleep (outcomes : Nat → AttemptOutcome α) (maxRetries retryDelay j : Nat) :
    Option Nat :=
  match outcomes j with
  | .exc _ => if j < maxRetries - 1 then some (retryDelay * 2 ^ j) else none
  | _ => none

/-- Blank-string test of the validate method: Python
`not s or s.strip() == ""` holds exactly when every character is
whitespace. -/
def isBlank (s : String) : Bool :=
  s.data.all Char.isWhitespace

/-! ### Article store (database_manager.py) -/

/-- A stored news article, restricted to the fields the verified paths
inspect: the unique identifier, the headline (used by validation and by
the similarity check) and the publication timestamp (used by the trailing
window of the similarity check). -/
structure DBArticle where
  storyId : String
  headline : String
  publishedAt : Int
deriving DecidableEq

/-- insert_news_article (database_manager.py lines 185-237), acting on the
store modelled as a list with the unique index on story_id enforced by the
database: validation failure (blank story_id or headline raises ValueError,
caught, returns False), duplicate identifier (IntegrityError at commit,
caught, rollback, returns False), otherwise the row is committed.  The
connection precondition is assumed. -/
def insertNewsArticle (store : List DBArticle) (a : DBArticle) :
    Bool × List DBArticle :=
  if isBlank a.storyId || isBlank a.headline then (false, store)
  else if store.any (fun x => x.storyId == a.storyId) then (false, store)
  else (true, store ++ [a])

/-- Result dictionary of bulk_insert_news_articles. -/
structure BulkResult where
  success : Bool
  insertedCount : Nat
  failedCount : Nat
  totalProcessed : Nat
deriving DecidableEq

/-- Settings read by the similarity based duplicate check: the
config-gated enabled flag, the threshold, the trailing window in hours,
the current time, and the similarity oracle abstracting the TF-IDF
vectorizer plus cosine_similarity: given the headlines of the recent
articles followed by the new headline, it returns the similarity of the
new headline against each recent one, or none when the vector space cannot
be built (the ValueError branch of database_manager.py line 610). -/
structure SimSettings where
  enabled : Bool
  threshold : ℚ
  windowHours : Int
  now : Int
  build : List String → Option (List ℚ)

/-- `config.get('check_window_hours', 24)` (database_manager.py line 583). -/
def duplicateCheckWindowHours (cfgVal : Option Int) : Int :=
  cfgVal.getD 24

/-- `config.get('similarity_threshold', 0.85)` (database_manager.py line 256). -/
def duplicateSimilarityThreshold (cfgVal : Option ℚ) : ℚ :=
  cfgVal.getD (85 / 100)

/-- The articles published within the trailing window
(database_manager.py lines 588-592). -/
def recentArticles (store : List DBArticle) (now windowHours : Int) : List DBArticle :=
  store.filter (fun a => decide (a.publishedAt ≥ now - windowHours * 3600))

/-- First index attaining the maximum, as np.argmax returns it. -/
def firstMaxIdx (sims : List ℚ) (m : ℚ) : Nat :=
  sims.findIdx (fun x => x == m)

/-- _is_duplicate_by_similarity (database_manager.py lines 570-633): no
recent article, or a vector space that cannot be built, skips the check
(returns false); otherwise the new item is a duplicate exactly when the
maximum similarity reaches the threshold, and the index of the matched
existing article (logged by the source) is reported as the second
component. -/
def isDuplicateBySimilarity (cfg : SimSettings) (store : List DBArticle)
    (a : DBArticle) : Bool × Option Nat :=
  let recent := recentArticles store cfg.now cfg.windowHours
  if recent.isEmpty then (false, none)
  else
    match cfg.build (recent.map DBArticle.headline ++ [a.headline]) with
    | none => (false, none)
    | some sims =>
        match sims.max? with
        | none => (false, none)
        | some m =>
            if m ≥ cfg.threshold then (true, some (firstMaxIdx sims m))
            else (false, none)

/-- One iteration of the loop of bulk_insert_news_articles
(database_manager.py lines 261-271), threading the evolving store and the
two counters: a similarity duplicate increments failed_count and skips the
insert; otherwise insert_news_article increments inserted_count on True
and failed_count on False. -/
def bulkInsertStep (cfg : SimSettings) (st : List DBArticle × Nat × Nat)
    (a : DBArticle) : List DBArticle × Nat × Nat :=
  let store := st.1
  let ins := st.2.1
  let fail := st.2.2
  if cfg.enabled && (isDuplicateBySimilarity cfg store a).1 then
    (store, ins, fail + 1)
  else
    match insertNewsArticle store a with
    | (true, store2) => (store2, ins + 1, fail)
    | (false, store2) => (store2, ins, fail + 1)

/-- bulk_insert_news_articles (database_manager.py lines 239-280),
connection assumed: iterates bulkInsertStep and reports
`success = True` with the two counters and the total. -/
def bulkInsertNewsArticles (cfg : SimSettings) (store : List DBArticle)
    (articles : List DBArticle) : BulkResult × List DBArticle :=
  let st := articles.foldl (bulkInsertStep cfg) (store, 0, 0)
  (⟨true, st.2.1, st.2.2, articles.length⟩, st.1)

/-! ### Fetch log (database_manager.py, complete_fetch_log) -/

/-- Status column of a fetch log record. -/
inductive LogStatus where
  | running
  | completed
  | failed
deriving DecidableEq

/-- complete_fetch_log line 560: status is failed exactly when an error
message was supplied. -/
def completeFetchLogStatus (errorMessage : Option String) : LogStatus :=
  if errorMessage.isSome then .failed else .completed

/-! ### Pages and orchestrators (news_fetcher.py) -/

/-- One row of a fetched page, with the fields the orchestrators read. -/
structure Row where
  storyId : String
  versionCreated : Int
  headline : String
deriving DecidableEq

/-- A fetched DataFrame: its rows plus presence of the two columns the
orchestrators test for (`'storyId' in page_data.columns`,
`'versionCreated' in page_data.columns`). -/
structure Frame where
  rows : List Row
  hasStoryIdCol : Bool
  hasVersionCreatedCol : Bool
deriving DecidableEq

/-- Why the orchestrator loop stopped. -/
inductive StopReason where
  | maxPagesReached
  | noData
  | fewerThanPerPage
  | cursorPastEnd
  | noTsColumn
  | indexError
  | nearStart
  | reachedStart
deriving DecidableEq

/-- Observable outcome of one orchestrator invocation: the accumulated
per-page frames, the stop reason, the final page counter, the number of
API fetches performed, whether an exception escaped the loop (the iloc
IndexError of the pagination cursor step), and the list of fetch windows
(date_from, date_to) of the API calls in order. -/
structure PagRun where
  frames : List Frame
  reason : StopReason
  pages : Nat
  calls : Nat
  raised : Bool
  windows : List (Int × Int)
deriving DecidableEq

/-- `if max_pages and page_count > max_pages` — Python truthiness makes a
configured max_pages of 0 mean no limit. -/
def maxPagesHit : Option Nat → Nat → Bool
  | some m, pageCount => decide (m ≠ 0) && decide (m < pageCount)
  | none, _ => false

/-- In-run exact dedup applied to a page (news_fetcher.py lines 884-888):
rows whose storyId was already seen are dropped, when the column exists. -/
def pagFiltered (page : Frame) (seen : List String) : List Row :=
  if page.hasStoryIdCol then page.rows.filter (fun r => !(seen.contains r.storyId))
  else page.rows

/-- The seen set after processing a page (update with the new ids). -/
def pagSeen2 (page : Frame) (seen : List String) : List String :=
  if page.hasStoryIdCol then seen ++ (pagFiltered page seen).map Row.storyId
  else seen

/-- The accumulated page list after processing a page: the filtered page is
appended when non-empty. -/
def pagFrames2 (page : Frame) (seen : List String) (frames : List Frame) :
    List Frame :=
  if (pagFiltered page seen).isEmpty then frames
  else frames ++ [⟨pagFiltered page seen, page.hasStoryIdCol, page.hasVersionCreatedCol⟩]

/-- The loop of fetch_headlines_paginated (news_fetcher.py lines 854-933),
driven by explicit fuel; `none` means the fuel ran out before the loop
stopped (used to state termination).  Each iteration: max_pages guard,
fetch `[current_start, end_date]`, break on no data, exact dedup, break
when the raw API count is below per_page, else advance the cursor to the
minimum versionCreated of the (deduplicated) page plus one second — the
value `iloc[-1]` of the descending sort yields — breaking when that next
start would reach end_date; a non-empty page without the versionCreated
column breaks the loop; a page left empty by dedup makes `iloc[-1]` raise,
modelled by `raised := true`. -/
def pagLoop (api : Int → Int → Option Frame) (perPage : Nat) (endDate : Int)
    (maxPages : Option Nat) :
    Nat → Int → Nat → List String → List Frame → Nat → List (Int × Int) →
    Option PagRun
  | 0, _, _, _, _, _, _ => none
  | fuel + 1, currentStart, pageCount, seen, frames, calls, windows =>
    let pc := pageCount + 1
    if maxPagesHit maxPages pc then
      some ⟨frames, .maxPagesReached, pc, calls, false, windows⟩
    else
      let windows2 := windows ++ [(currentStart, endDate)]
      match api currentStart endDate with
      | none => some ⟨frames, .noData, pc, calls + 1, false, windows2⟩
      | some page =>
        if page.rows.isEmpty then
          some ⟨frames, .noData, pc, calls + 1, false, windows2⟩
        else
          let filtered := pagFiltered page seen
          let frames2 := pagFrames2 page seen frames
          if page.rows.length < perPage then
            some ⟨frames2, .fewerThanPerPage, pc, calls + 1, false, windows2⟩
          else if page.hasVersionCreatedCol then
            match (filtered.map Row.versionCreated).min? with
            | none => some ⟨frames2, .indexError, pc, calls + 1, true, windows2⟩
            | some oldest =>
              if oldest + 1 ≥ endDate then
                some ⟨frames2, .cursorPastEnd, pc, calls + 1, false, windows2⟩
              else
                pagLoop api perPage endDate maxPages fuel (oldest + 1) pc
                  (pagSeen2 page seen) frames2 (calls + 1) windows2
          else
            some ⟨frames2, .noTsColumn, pc, calls + 1, false, windows2⟩

/-- fetch_headlines_paginated from its initial state (connection and
start_date preconditions assumed). -/
def fetchHeadlinesPaginated (api : Int → Int → Option Frame) (perPage : Nat)
    (startDate endDate : Int) (maxPages : Option Nat) (fuel : Nat) :
    Option PagRun :=
  pagLoop api perPage endDate maxPages fuel startDate 0 [] [] 0 []

/-- The loop of fetch_headlines_backfill (news_fetcher.py lines 1004-1088):
fetch `[start_date, current_end]`; a raw count below per_page only breaks
when current_end is within one hour of start_date; otherwise the cursor
retreats to the minimum versionCreated of the (deduplicated) page minus
one second, breaking when that would fall at or before start_date; a page
without the versionCreated column, or left empty by dedup, breaks. -/
def backLoop (api : Int → Int → Option Frame) (perPage : Nat) (startDate : Int)
    (maxPages : Option Nat) :
    Nat → Int → Nat → List String → List Frame → Nat → List (Int × Int) →
    Option PagRun
  | 0, _, _, _, _, _, _ => none
  | fuel + 1, currentEnd, pageCount, seen, frames, calls, windows =>
    let pc := pageCount + 1
    if maxPagesHit maxPages pc then
      some ⟨frames, .maxPagesReached, pc, calls, false, windows⟩
    else
      let windows2 := windows ++ [(startDate, currentEnd)]
      match api startDate currentEnd with
      | none => some ⟨frames, .noData, pc, calls + 1, false, windows2⟩
      | some page =>
        if page.rows.isEmpty then
          some ⟨frames, .noData, pc, calls + 1, false, windows2⟩
        else
          let filtered := pagFiltered page seen
          let frames2 := pagFrames2 page seen frames
          if page.rows.length < perPage && !(decide (currentEnd > startDate + 3600)) then
            some ⟨frames2, .nearStart, pc, calls + 1, false, windows2⟩
          else if page.hasVersionCreatedCol && !filtered.isEmpty then
            match (filtered.map Row.versionCreated).min? with
            | none => some ⟨frames2, .noTsColumn, pc, calls + 1, false, windows2⟩
            | some oldest =>
              if oldest - 1 ≤ startDate then
                some ⟨frames2, .reachedStart, pc, calls + 1, false, windows2⟩
              else
                backLoop api perPage startDate maxPages fuel (oldest - 1) pc
                  (pagSeen2 page seen) frames2 (calls + 1) windows2
          else
            some ⟨frames2, .noTsColumn, pc, calls + 1, false, windows2⟩

/-- fetch_headlines_backfill from its initial state. -/
def fetchHeadlinesBackfill (api : Int → Int → Option Frame) (perPage : Nat)
    (startDate endDate : Int) (maxPages : Option Nat) (fuel : Nat) :
    Option PagRun :=
  backLoop api perPage startDate maxPages fuel endDate 0 [] [] 0 []

/-- drop_duplicates on storyId, keeping the first occurrence. -/
def dedupKeepFirst : List Row → List String → List Row
  | [], _ => []
  | r :: rs, seen =>
      if seen.contains r.storyId then dedupKeepFirst rs seen
      else r :: dedupKeepFirst rs (r.storyId :: seen)

/-- pd.concat of the accumulated pages: a column is present in the result
when some page has it. -/
def combineFrames (frames : List Frame) : Frame :=
  ⟨(frames.map Frame.rows).flatten,
   frames.any Frame.hasStoryIdCol,
   frames.any Frame.hasVersionCreatedCol⟩

/-- The combine step after either orchestrator loop (news_fetcher.py lines
935-948): an empty accumulation returns an empty DataFrame, otherwise the
pages are concatenated and finally deduplicated on storyId when that
column exists. -/
def finishPag (frames : List Frame) : Frame :=
  if frames.isEmpty then ⟨[], false, false⟩
  else
    let combined := combineFrames frames
    if combined.hasStoryIdCol then
      ⟨dedupKeepFirst combined.rows [], combined.hasStoryIdCol, combined.hasVersionCreatedCol⟩
    else combined

/-- The value fetch_headlines_paginated returns to its caller: none when
the IndexError escaped, otherwise the combined DataFrame. -/
def pagOutput (run : PagRun) : Option Frame :=
  if run.raised then none else some (finishPag run.frames)

/-! ### Run wrapper (main.py, fetch_and_store_news_paginated) -/

/-- The run outcome visible to the operator: the success flag and counts of
the result dictionary, and the status and error presence the fetch log
record ends with. -/
structure MainResult where
  success : Bool
  articlesFetched : Nat
  articlesStored : Nat
  logStatus : LogStatus
  logError : Bool
deriving DecidableEq

/-- create_news_articles (news_fetcher.py lines 564-626) restricted to the
modelled fields: a row is dropped unless its story_id, headline and
published_at are all truthy (`if not all([story_id, headline,
published_at])`); published_at is `row.get('versionCreated')`, which is
None on every row when the frame lacks that column.  The surviving rows
become articles with the publish timestamp. -/
def createNewsArticles (frame : Frame) : List DBArticle :=
  frame.rows.filterMap (fun r =>
    if r.storyId = "" ∨ r.headline = "" ∨ frame.hasVersionCreatedCol = false then none
    else some ⟨r.storyId, r.headline, r.versionCreated⟩)

/-- fetch_and_store_news_paginated (main.py lines 206-310): runs the
pagination orchestrator inside try/except; an escaped exception or an
empty (or None) result completes the fetch log with an error message and
reports failure; otherwise the articles are bulk inserted, the fetch log
is completed with no error, and the result dictionary reports success.
`none` propagates the out-of-fuel marker of the loop model. -/
def fetchAndStoreNewsPaginated (api : Int → Int → Option Frame) (perPage : Nat)
    (startDate endDate : Int) (maxPages : Option Nat) (fuel : Nat)
    (cfg : SimSettings) (store : List DBArticle) :
    Option (MainResult × List DBArticle) :=
  match fetchHeadlinesPaginated api perPage startDate endDate maxPages fuel with
  | none => none
  | some run =>
    if run.raised then
      some (⟨false, 0, 0, completeFetchLogStatus (some "error"), true⟩, store)
    else
      let frame := finishPag run.frames
      if frame.rows.isEmpty then
        some (⟨false, 0, 0, completeFetchLogStatus (some "no data"), true⟩, store)
      else
        let articles := createNewsArticles frame
        let res := bulkInsertNewsArticles cfg store articles
        some (⟨true, articles.length, res.1.insertedCount,
               completeFetchLogStatus none, false⟩, res.2)

/-! ### Concrete inputs used by witnesses and counterexamples -/

/-- Similarity duplicate detection disabled, as when the
news_filtering.duplicate_detection config block is absent. -/
def simOff : SimSettings :=
  ⟨false, 85 / 100, 24, 0, fun _ => none⟩

/-- A concrete article. -/
def artC1 : DBArticle :=
  ⟨"id1", "a headline", 0⟩

/-- A two-row page with distinct timestamps 20 and 10. -/
def pageC2 : Frame :=
  ⟨[⟨"a", 20, "ha"⟩, ⟨"b", 10, "hb"⟩], true, true⟩

/-- A remote source returning pageC2 for windows starting at 0 and an
empty page afterwards. -/
def apiC2 : Int → Int → Option Frame := fun s _ =>
  if s = 0 then some pageC2 else some ⟨[], true, true⟩

/-- A two-row page with timestamps 7205 and 7300, used for the backfill
cursor. -/
def pageC3 : Frame :=
  ⟨[⟨"a", 7205, "h1"⟩, ⟨"b", 7300, "h2"⟩], true, true⟩

/-- A remote source returning pageC3 for windows ending at 36000 and an
empty page afterwards. -/
def apiC3 : Int → Int → Option Frame := fun _ e =>
  if e = 36000 then some pageC3 else some ⟨[], true, true⟩

/-- A remote source whose single non-empty page lacks the versionCreated
column. -/
def apiC5 : Int → Int → Option Frame := fun _ _ =>
  some ⟨[⟨"a", 5, "h"⟩], true, false⟩

/-- A remote source that always returns an empty page. -/
def apiEmpty : Int → Int → Option Frame := fun _ _ =>
  some ⟨[], true, true⟩

/-- A remote source whose fetches always fail (retry exhaustion). -/
def apiNone : Int → Int → Option Frame := fun _ _ => none

/-- Attempts that always return the failure value None. -/
def outcomesAllFail : Nat → AttemptOutcome Nat := fun _ =>
  .failValue

/-- Attempts: the first raises, the rest return the failure value None. -/
def outcomesOneExc : Nat → AttemptOutcome Nat := fun i =>
  if i = 0 then .exc "boom" else .failValue

/-- A store holding one recently published article. -/
def storeC9 : List DBArticle :=
  [⟨"e1", "existing headline", 100⟩]

/-- A new article checked against storeC9. -/
def artC9 : DBArticle :=
  ⟨"n1", "new headline", 100⟩

/-- Similarity detection enabled with a similarity oracle returning a
single score 1 and threshold 0. -/
def cfgC9 : SimSettings :=
  ⟨true, 0, 24, 100, fun _ => some [1]⟩

/-- Similarity detection enabled with an oracle that cannot build a vector
space. -/
def cfgC9none : SimSettings :=
  ⟨true, 0, 24, 100, fun _ => none⟩

/-! ### Helper lemmas -/

/-- The minimum of an integer list is a member. -/
theorem intMinMem {l : List Int} {a : Int} (h : l.min? = some a) : a ∈ l :=
  List.min?_mem (fun x y => min_choice x y) h

/-- The minimum of an integer list bounds every member. -/
theorem intMinLe {l : List Int} {a : Int} (h : l.min? = some a) :
    ∀ b ∈ l, a ≤ b :=
  fun b hb => (List.le_min?_iff (fun _ _ _ => le_min_iff) h).1 le_rfl b hb

/-- The guarded-append cascade appends, after the accumulator, exactly the
rules that fire and whose name is not already in the accumulator, in rule
order — provided the rule names are distinct. -/
theorem addCats_charact (full hl : String) :
    ∀ (rules : List (String × (String → String → Bool))) (acc : List String),
    (rules.map Prod.fst).Nodup →
    addCats full hl rules acc
      = acc ++ (rules.filter
          (fun r => r.2 full hl && !(acc.contains r.1))).map Prod.fst := by
  intro rules
  induction rules with
  | nil => intro acc _; simp [addCats]
  | cons r rs ih =>
    intro acc hnd
    simp only [List.map_cons, List.nodup_cons] at hnd
    obtain ⟨hr, hrs⟩ := hnd
    by_cases hc : (r.2 full hl && !(acc.contains r.1)) = true
    · rw [addCats, if_pos hc, ih _ hrs]
      have hfil : rs.filter (fun x => x.2 full hl && !((acc ++ [r.1]).contains x.1))
          = rs.filter (fun x => x.2 full hl && !(acc.contains x.1)) := by
        apply List.filter_congr
        intro x hx
        have hne : x.1 ≠ r.1 := by
          intro he
          exact hr (he ▸ List.mem_map_of_mem Prod.fst hx)
        simp [List.contains, List.elem_eq_mem, hne]
      rw [hfil]
      have h1 : r.2 full hl = true := (Bool.and_eq_true_iff.1 hc).1
      have h2 : r.1 ∉ acc := by
        have h3 := (Bool.and_eq_true_iff.1 hc).2
        simpa [List.contains, List.elem_eq_mem] using h3
      simp [List.filter_cons, h1, h2]
    · rw [addCats, if_neg hc, ih _ hrs]
      have hneg : ¬(r.2 full hl = true ∧ r.1 ∉ acc) := by
        intro hand
        apply hc
        simp [List.contains, List.elem_eq_mem, hand.1, hand.2]
      simp [List.filter_cons, hneg]

/-- The guarded-append cascade preserves distinctness of the accumulator. -/
theorem addCats_nodup (full hl : String) :
    ∀ (rules : List (String × (String → String → Bool))) (acc : List String),
    acc.Nodup → (addCats full hl rules acc).Nodup := by
  intro rules
  induction rules with
  | nil => intro acc h; simpa [addCats] using h
  | cons r rs ih =>
    intro acc hacc
    by_cases hc : (r.2 full hl && !(acc.contains r.1)) = true
    · rw [addCats, if_pos hc]
      apply ih
      have hnm : r.1 ∉ acc := by
        rcases Bool.and_eq_true_iff.1 hc with ⟨-, h2⟩
        simpa [List.contains, List.elem_eq_mem] using h2
      simp [List.nodup_append, hacc, hnm]
    · rw [addCats, if_neg hc]
      exact ih acc hacc

/-- Claim C8: the attached category value is an ordered comma-joined set:
the requested category (when the fetch was scoped to one) is always first,
even with no keyword match; the additionally detected categories follow in
detection (rule) order; each category appears at most once; and the
headline "Copper and zinc prices rise" yields the set COPPER, ZINC in
detection order. -/
theorem categories_requested_first_then_detection_order
    (copt : Option String) (c headline body : String) :
    (detectCategories copt headline body
       = requestedCats copt
         ++ (catRules.filter (fun r =>
              r.2 (asciiLower headline ++ " " ++ asciiLower body) (asciiLower headline)
                && !((requestedCats copt).contains r.1))).map Prod.fst)
  ∧ (detectCategories (some c) headline body).head? = some c
  ∧ (detectCategories copt headline body).Nodup
  ∧ detectCategories none "Copper and zinc prices rise" "" = ["COPPER", "ZINC"]
  ∧ detectedCategoryString none "Copper and zinc prices rise" "" = "COPPER,ZINC" := by
  refine ⟨?_, ?_, ?_, ?_, ?_⟩
  · exact addCats_charact _ _ catRules _ (by decide)
  · rw [detectCategories, addCats_charact _ _ catRules _ (by decide)]
    simp [requestedCats]
  · apply addCats_nodup
    cases copt <;> simp [requestedCats]
  · decide
  · decide

/-- Claim C10: the count sent to the remote API is
min(requested-or-default, max_count); it never exceeds max_count, and a
per_page above max_count can never be matched by a raw returned count. -/
theorem effective_count_clamped (count : Option Nat) (defaultCount maxCount : Nat) :
    effectiveCount count defaultCount maxCount ≤ maxCount
  ∧ (∀ c, count = some c → c ≠ 0 →
       effectiveCount count defaultCount maxCount = min c maxCount)
  ∧ (count = none →
       effectiveCount count defaultCount maxCount = min defaultCount maxCount)
  ∧ (count = some 0 →
       effectiveCount count defaultCount maxCount = min defaultCount maxCount)
  ∧ (∀ perPage raw, maxCount < perPage →
       raw ≤ effectiveCount count defaultCount maxCount → raw ≠ perPage) := by
  refine ⟨?_, ?_, ?_, ?_, ?_⟩
  · cases count with
    | none => simp [effectiveCount]
    | some c => by_cases h : c = 0 <;> simp [effectiveCount, h]
  · intro c hc hne
    subst hc
    simp [effectiveCount, hne]
  · intro hc
    subst hc
    simp [effectiveCount]
  · intro hc
    subst hc
    simp [effectiveCount]
  · intro perPage raw hlt hle he
    subst he
    have h1 : effectiveCount count defaultCount maxCount ≤ maxCount := by
      cases count with
      | none => simp [effectiveCount]
      | some c => by_cases h : c = 0 <;> simp [effectiveCount, h]
    omega

/-- Witness for effective_count_clamped at a concrete input. -/
theorem effective_count_clamped_witness :
    effectiveCount (some 1000) 100 500 = min 1000 500 ∧ (500 : Nat) ≠ 1000 := by
  refine ⟨(effective_count_clamped (some 1000) 100 500).2.1 1000 rfl (by decide), ?_⟩
  exact (effective_count_clamped (some 1000) 100 500).2.2.2.2 1000 500 (by decide) (by decide)

/-- On a run where no attempt succeeds, the retry loop returns None and
its trace records exactly the exception attempts: each is logged with its
attempt number and cause, and each non-final one is preceded by a backoff
sleep of retryDelay * 2 ^ attemptIndex; attempts that return the failure
value leave no trace. -/
theorem retryLoop_all_fail (outcomes : Nat → AttemptOutcome α)
    (maxRetries retryDelay : Nat)
    (hfail : ∀ i, i < maxRetries → ∀ v, outcomes i ≠ .ok v) :
    ∀ (remaining i : Nat) (sleeps : List Nat) (logs : List (Nat × String)),
    i + remaining = maxRetries →
    retryLoop outcomes maxRetries retryDelay remaining i sleeps logs
      = ⟨none,
         sleeps ++ (List.range' i remaining).filterMap
           (excSleep outcomes maxRetries retryDelay),
         logs ++ (List.range' i remaining).filterMap (excLog outcomes)⟩ := by
  intro remaining
  induction remaining with
  | zero =>
    intro i sleeps logs hik
    simp [retryLoop]
  | succ n ih =>
    intro i sleeps logs hik
    have hi : i < maxRetries := by omega
    rw [retryLoop]
    cases houtcome : outcomes i with
    | ok v => exact absurd houtcome (hfail i hi v)
    | failValue =>
      rw [ih (i + 1) sleeps logs (by omega)]
      simp [List.range'_succ, List.filterMap_cons, houtcome, excSleep, excLog]
    | exc m =>
      by_cases hlast : i < maxRetries - 1
      · simp [List.range'_succ, List.filterMap_cons, houtcome, hlast, excSleep, excLog,
          ih (i + 1) (sleeps ++ [retryDelay * 2 ^ i]) (logs ++ [(i + 1, m)])
            (by omega : i + 1 + n = maxRetries)]
      · have hn : n = 0 := by omega
        subst hn
        simp [List.range'_succ, List.filterMap_cons, houtcome, hlast, excSleep, excLog]

/-- Claim C7 (amended): the retry wrapper signals exhaustion upward by
returning the failure value None; every attempt that fails by raising an
exception is logged with its attempt number and cause and, when it is not
the final attempt, is followed by a backoff sleep of
retryDelay * 2 ^ (attempt - 1); attempts that fail by returning None are
retried immediately, with no retry log and no sleep. -/
theorem retry_backoff_on_exception_failures (outcomes : Nat → AttemptOutcome Nat)
    (maxRetries retryDelay : Nat)
    (hfail : ∀ i, i < maxRetries → ∀ v, outcomes i ≠ .ok v) :
    (fetchHeadlinesWithRetry outcomes maxRetries retryDelay).result = none
  ∧ (fetchHeadlinesWithRetry outcomes maxRetries retryDelay).retryLogs
      = (List.range maxRetries).filterMap (excLog outcomes)
  ∧ (fetchHeadlinesWithRetry outcomes maxRetries retryDelay).sleeps
      = (List.range maxRetries).filterMap (excSleep outcomes maxRetries retryDelay) := by
  have h := retryLoop_all_fail outcomes maxRetries retryDelay hfail maxRetries 0 [] []
    (by omega)
  rw [fetchHeadlinesWithRetry, h]
  refine ⟨rfl, ?_, ?_⟩ <;> simp [List.range_eq_range']

/-- Witness for retry_backoff_on_exception_failures: first attempt raises,
the rest return None; the raise is logged as attempt 1 and backed off with
delay 2 * 2 ^ 0 = 2, the None failures leave no trace. -/
theorem retry_backoff_on_exception_failures_witness :
    (fetchHeadlinesWithRetry outcomesOneExc 3 2).result = none
  ∧ (fetchHeadlinesWithRetry outcomesOneExc 3 2).retryLogs = [(1, "boom")]
  ∧ (fetchHeadlinesWithRetry outcomesOneExc 3 2).sleeps = [2] := by
  obtain ⟨h1, h2, h3⟩ := retry_backoff_on_exception_failures outcomesOneExc 3 2
    (by
      intro i hi v
      match i, hi with
      | 0, _ => simp [outcomesOneExc]
      | 1, _ => simp [outcomesOneExc]
      | 2, _ => simp [outcomesOneExc])
  refine ⟨h1, ?_, ?_⟩
  · rw [h2]; rfl
  · rw [h3]; rfl

/-- Claim C7 counterexample: three attempts that all fail by returning the
failure value None are exhausted with no backoff sleep at all and no
retry log entries, against the claimed wait of base_delay * 2^(attempt-1)
before every next attempt and the claimed logging of every failed
attempt. -/
theorem retry_no_wait_for_none_failures :
    fetchHeadlinesWithRetry outcomesAllFail 3 2
      = ⟨none, ([] : List Nat), ([] : List (Nat × String))⟩
  ∧ ([] : List Nat) ≠ [2 * 2 ^ 0, 2 * 2 ^ 1] := by
  exact ⟨rfl, by decide⟩

/-- Claim C1 (amended): re-inserting an identifier already in the store
creates no second record — the store is unchanged and the insert returns
False without raising — and bulk insert counts the duplicate inside
failed_count (not separately) while still reporting overall success;
distinctness of stored identifiers is preserved by every insert. -/
theorem insert_duplicate_keeps_store (store : List DBArticle) (a : DBArticle)
    (cfg : SimSettings)
    (hdup : store.any (fun x => x.storyId == a.storyId) = true)
    (hcfg : cfg.enabled = false) :
    insertNewsArticle store a = (false, store)
  ∧ bulkInsertNewsArticles cfg store [a]
      = (⟨true, 0, 1, 1⟩, store)
  ∧ (∀ (s2 : List DBArticle) (b : DBArticle),
      (s2.map DBArticle.storyId).Nodup →
      (((insertNewsArticle s2 b).2).map DBArticle.storyId).Nodup) := by
  have hins : insertNewsArticle store a = (false, store) := by
    rw [insertNewsArticle]
    by_cases hval : (isBlank a.storyId || isBlank a.headline) = true
    · rw [if_pos hval]
    · rw [if_neg hval, if_pos hdup]
  refine ⟨hins, ?_, ?_⟩
  · simp [bulkInsertNewsArticles, bulkInsertStep, hcfg, hins]
  · intro s2 b hnd
    rw [insertNewsArticle]
    by_cases hval : (isBlank b.storyId || isBlank b.headline) = true
    · rw [if_pos hval]; exact hnd
    · rw [if_neg hval]
      by_cases hdup2 : s2.any (fun x => x.storyId == b.storyId) = true
      · rw [if_pos hdup2]; exact hnd
      · rw [if_neg hdup2]
        have hnotin : b.storyId ∉ s2.map DBArticle.storyId := by
          intro hmem
          apply hdup2
          rw [List.any_eq_true]
          obtain ⟨x, hx, he⟩ := List.mem_map.1 hmem
          exact ⟨x, hx, by simp [he]⟩
        simp [List.nodup_append, hnd, hnotin]

/-- Witness for insert_duplicate_keeps_store at a concrete duplicate. -/
theorem insert_duplicate_keeps_store_witness :
    insertNewsArticle [artC1] artC1 = (false, [artC1])
  ∧ bulkInsertNewsArticles simOff [artC1] [artC1] = (⟨true, 0, 1, 1⟩, [artC1]) := by
  obtain ⟨h1, h2, -⟩ := insert_duplicate_keeps_store [artC1] artC1 simOff
    (by decide) rfl
  exact ⟨h1, h2⟩

/-- Claim C1 counterexample: for a batch consisting of one already stored
article, bulk insert reports failed_count = 1 — the duplicate is counted
among the failures of the reported result, not separately from them. -/
theorem duplicate_counted_inside_failures :
    bulkInsertNewsArticles simOff [artC1] [artC1] = (⟨true, 0, 1, 1⟩, [artC1])
  ∧ (bulkInsertNewsArticles simOff [artC1] [artC1]).1.failedCount ≠ 0 := by
  exact ⟨rfl, by decide⟩

/-- Claim C9: when similarity detection is enabled, a new article is
checked against the articles published within the trailing window; it is
rejected exactly when the maximum similarity meets or exceeds the
threshold, in which case the matched existing article (the first index
attaining the maximum) is reported for logging; with no recent articles,
or when the vector space cannot be built, the check is skipped and the
article proceeds through the normal insert path; the window defaults to
24 hours and the threshold to 0.85. -/
theorem similarity_check_rejects_at_threshold (cfg : SimSettings)
    (store : List DBArticle) (a : DBArticle) (sims : List ℚ) (m : ℚ) :
    (recentArticles store cfg.now cfg.windowHours = [] →
       isDuplicateBySimilarity cfg store a = (false, none))
  ∧ (cfg.build ((recentArticles store cfg.now cfg.windowHours).map DBArticle.headline
        ++ [a.headline]) = none →
       isDuplicateBySimilarity cfg store a = (false, none))
  ∧ (recentArticles store cfg.now cfg.windowHours ≠ [] →
     cfg.build ((recentArticles store cfg.now cfg.windowHours).map DBArticle.headline
        ++ [a.headline]) = some sims →
     sims.max? = some m →
       ((isDuplicateBySimilarity cfg store a).1 = true ↔ m ≥ cfg.threshold)
     ∧ (m ≥ cfg.threshold →
          isDuplicateBySimilarity cfg store a = (true, some (firstMaxIdx sims m))))
  ∧ duplicateCheckWindowHours none = 24
  ∧ duplicateSimilarityThreshold none = 85 / 100
  ∧ (∀ st : List DBArticle × Nat × Nat,
       (isDuplicateBySimilarity cfg st.1 a).1 = false →
       bulkInsertStep cfg st a
         = match insertNewsArticle st.1 a with
           | (true, s2) => (s2, st.2.1 + 1, st.2.2)
           | (false, s2) => (s2, st.2.1, st.2.2 + 1)) := by
  refine ⟨?_, ?_, ?_, rfl, rfl, ?_⟩
  · intro hrec
    simp [isDuplicateBySimilarity, hrec]
  · intro hbuild
    rw [isDuplicateBySimilarity]
    by_cases hrec : (recentArticles store cfg.now cfg.windowHours).isEmpty = true
    · rw [if_pos hrec]
    · rw [if_neg hrec, hbuild]
  · intro hrec hbuild hmax
    have hrec2 : (recentArticles store cfg.now cfg.windowHours).isEmpty = false := by
      simpa [List.isEmpty_iff] using hrec
    constructor
    · rw [isDuplicateBySimilarity]
      simp only [hrec2, Bool.false_eq_true, if_false, hbuild, hmax]
      by_cases hge : m ≥ cfg.threshold
      · simp [hge]
      · simp [hge]
    · intro hge
      rw [isDuplicateBySimilarity]
      simp only [hrec2, Bool.false_eq_true, if_false, hbuild, hmax]
      rw [if_pos hge]
  · intro st hskip
    rw [bulkInsertStep, hskip]
    simp

/-- Witness for similarity_check_rejects_at_threshold: a store with one
recent article, an oracle score of 1 against threshold 0 rejects the new
article and reports index 0; the same store with an oracle that cannot
build a vector space skips the check. -/
theorem similarity_check_rejects_at_threshold_witness :
    isDuplicateBySimilarity cfgC9 storeC9 artC9 = (true, some 0)
  ∧ isDuplicateBySimilarity cfgC9none storeC9 artC9 = (false, none) := by
  constructor
  · have h := ((similarity_check_rejects_at_threshold cfgC9 storeC9 artC9 [1] 1).2.2.1
      (by decide) rfl rfl).2 (by norm_num [cfgC9])
    rw [h]
    rfl
  · exact (similarity_check_rejects_at_threshold cfgC9none storeC9 artC9 [1] 1).2.1 rfl

/-- Claim C2 (amended): for a non-final page, the pagination cursor
advances to min(versionCreated in the deduplicated page) + 1 second — the
value `iloc[-1]` of the descending sort yields — and the loop terminates
normally (returning the accumulated pages) when that next start would meet
or exceed end_date. -/
theorem pagination_cursor_is_min_plus_one (api : Int → Int → Option Frame)
    (perPage : Nat) (endDate : Int) (maxPages : Option Nat) (fuel : Nat)
    (cs : Int) (pc : Nat) (seen : List String) (frames : List Frame)
    (calls : Nat) (windows : List (Int × Int)) (page : Frame) (oldest : Int)
    (hguard : maxPagesHit maxPages (pc + 1) = false)
    (happ : api cs endDate = some page)
    (hne : page.rows.isEmpty = false)
    (hlen : ¬ page.rows.length < perPage)
    (hts : page.hasVersionCreatedCol = true)
    (hmin : ((pagFiltered page seen).map Row.versionCreated).min? = some oldest) :
    (∀ r ∈ pagFiltered page seen, oldest ≤ r.versionCreated)
  ∧ (oldest + 1 ≥ endDate →
      pagLoop api perPage endDate maxPages (fuel + 1) cs pc seen frames calls windows
        = some ⟨pagFrames2 page seen frames, .cursorPastEnd, pc + 1, calls + 1, false,
                windows ++ [(cs, endDate)]⟩)
  ∧ (¬ oldest + 1 ≥ endDate →
      pagLoop api perPage endDate maxPages (fuel + 1) cs pc seen frames calls windows
        = pagLoop api perPage endDate maxPages fuel (oldest + 1) (pc + 1)
            (pagSeen2 page seen) (pagFrames2 page seen frames) (calls + 1)
            (windows ++ [(cs, endDate)])) := by
  refine ⟨?_, ?_, ?_⟩
  · intro r hr
    exact intMinLe hmin _ (List.mem_map_of_mem Row.versionCreated hr)
  · intro hge
    rw [pagLoop]
    simp [hguard, happ, hne, hlen, hts, hmin, hge]
  · intro hge
    rw [pagLoop]
    simp [hguard, happ, hne, hlen, hts, hmin, hge]

/-- Witness for pagination_cursor_is_min_plus_one: a first page with
timestamps 20 and 10 advances the cursor to 11, carrying the dedup set and
the accumulated page. -/
theorem pagination_cursor_is_min_plus_one_witness :
    pagLoop apiC2 2 1000 none (3 + 1) 0 0 [] [] 0 []
      = pagLoop apiC2 2 1000 none 3 11 1 ["a", "b"]
          [⟨[⟨"a", 20, "ha"⟩, ⟨"b", 10, "hb"⟩], true, true⟩] 1 [(0, 1000)] := by
  have h := (pagination_cursor_is_min_plus_one apiC2 2 1000 none 3 0 0 [] [] 0 []
    pageC2 10 rfl rfl rfl (by decide) rfl rfl).2.2 (by decide)
  rw [h]
  rfl

/-- Claim C2 counterexample: on a page holding timestamps 20 and 10, the
next fetch window starts at 11 = min + 1, not at 21 = max + 1 as the claim
states. -/
theorem pagination_cursor_not_max_plus_one :
    fetchHeadlinesPaginated apiC2 2 0 1000 none 5
      = some ⟨[⟨[⟨"a", 20, "ha"⟩, ⟨"b", 10, "hb"⟩], true, true⟩], .noData, 2, 2, false,
              [(0, 1000), (11, 1000)]⟩
  ∧ (11 : Int) ≠ 20 + 1 :=
  ⟨rfl, by decide⟩

/-- Claim C3: for a non-final page, the backfill cursor retreats to
min(versionCreated in the deduplicated page) - 1 second, so the next
window ends strictly before the oldest timestamp of the page, and the loop
stops, reporting arrival at start_date, once that next end would fall at
or before start_date. -/
theorem backfill_cursor_retreats (api : Int → Int → Option Frame)
    (perPage : Nat) (startDate : Int) (maxPages : Option Nat) (fuel : Nat)
    (ce : Int) (pc : Nat) (seen : List String) (frames : List Frame)
    (calls : Nat) (windows : List (Int × Int)) (page : Frame) (oldest : Int)
    (hguard : maxPagesHit maxPages (pc + 1) = false)
    (happ : api startDate ce = some page)
    (hne : page.rows.isEmpty = false)
    (hproceed : ¬ page.rows.length < perPage ∨ ce > startDate + 3600)
    (hts : page.hasVersionCreatedCol = true)
    (hfil : (pagFiltered page seen).isEmpty = false)
    (hmin : ((pagFiltered page seen).map Row.versionCreated).min? = some oldest) :
    (∀ r ∈ pagFiltered page seen, oldest ≤ r.versionCreated)
  ∧ oldest - 1 < oldest
  ∧ (oldest - 1 ≤ startDate →
      backLoop api perPage startDate maxPages (fuel + 1) ce pc seen frames calls windows
        = some ⟨pagFrames2 page seen frames, .reachedStart, pc + 1, calls + 1, false,
                windows ++ [(startDate, ce)]⟩)
  ∧ (¬ oldest - 1 ≤ startDate →
      backLoop api perPage startDate maxPages (fuel + 1) ce pc seen frames calls windows
        = backLoop api perPage startDate maxPages fuel (oldest - 1) (pc + 1)
            (pagSeen2 page seen) (pagFrames2 page seen frames) (calls + 1)
            (windows ++ [(startDate, ce)])) := by
  have hp2 : page.rows.length < perPage → startDate + 3600 < ce := by
    intro hA
    by_contra hB
    rcases hproceed with h | h
    · exact h hA
    · exact hB h
  refine ⟨?_, by omega, ?_, ?_⟩
  · intro r hr
    exact intMinLe hmin _ (List.mem_map_of_mem Row.versionCreated hr)
  · intro hle
    rw [backLoop]
    by_cases hA : page.rows.length < perPage
    · simp [hguard, happ, hne, hts, hfil, hmin, hle, hA, hp2 hA]
    · simp [hguard, happ, hne, hts, hfil, hmin, hle, hA]
  · intro hle
    rw [backLoop]
    by_cases hA : page.rows.length < perPage
    · simp [hguard, happ, hne, hts, hfil, hmin, hle, hA, hp2 hA]
    · simp [hguard, happ, hne, hts, hfil, hmin, hle, hA]

/-- Witness for backfill_cursor_retreats: a page with timestamps 7205 and
7300 retreats the window end to 7204 toward target 0, and stops with
target 7204 reached. -/
theorem backfill_cursor_retreats_witness :
    backLoop apiC3 2 0 none (3 + 1) 36000 0 [] [] 0 []
      = backLoop apiC3 2 0 none 3 7204 1 ["a", "b"]
          [⟨[⟨"a", 7205, "h1"⟩, ⟨"b", 7300, "h2"⟩], true, true⟩] 1 [(0, 36000)]
  ∧ backLoop apiC3 2 7204 none (3 + 1) 36000 0 [] [] 0 []
      = some ⟨[⟨[⟨"a", 7205, "h1"⟩, ⟨"b", 7300, "h2"⟩], true, true⟩], .reachedStart,
              1, 1, false, [(7204, 36000)]⟩ := by
  constructor
  · have h := (backfill_cursor_retreats apiC3 2 0 none 3 36000 0 [] [] 0 []
      pageC3 7205 rfl rfl rfl (Or.inl (by decide)) rfl rfl rfl).2.2.2 (by decide)
    rw [h]
    rfl
  · have h := (backfill_cursor_retreats apiC3 2 7204 none 3 36000 0 [] [] 0 []
      pageC3 7205 rfl rfl rfl (Or.inl (by decide)) rfl rfl rfl).2.2.1 (by decide)
    rw [h]
    rfl

/-- Claim C5 (amended): a non-empty page without a usable timestamp field
stops the pagination loop with a warning (reason noTsColumn) rather than
raising; the pages accumulated so far are retained in the returned frame
and, whenever the combined result is non-empty, the run completes as a
success: the fetch log is completed with no error (status completed) and
the result reports success — while the rows of the timestamp-less page
itself are all dropped by create_news_articles for lack of a published_at
value, so nothing from that page is stored. -/
theorem no_ts_column_truncates_run (api : Int → Int → Option Frame)
    (perPage : Nat) (endDate : Int) (maxPages : Option Nat) (fuel : Nat)
    (cs : Int) (pc : Nat) (seen : List String) (frames : List Frame)
    (calls : Nat) (windows : List (Int × Int)) (page : Frame)
    (hguard : maxPagesHit maxPages (pc + 1) = false)
    (happ : api cs endDate = some page)
    (hne : page.rows.isEmpty = false)
    (hlen : ¬ page.rows.length < perPage)
    (hts : page.hasVersionCreatedCol = false) :
    (pagLoop api perPage endDate maxPages (fuel + 1) cs pc seen frames calls windows
      = some ⟨pagFrames2 page seen frames, .noTsColumn, pc + 1, calls + 1, false,
              windows ++ [(cs, endDate)]⟩)
  ∧ (∀ (api2 : Int → Int → Option Frame) (perPage2 : Nat) (s e : Int)
       (mp : Option Nat) (fuel2 : Nat) (cfg : SimSettings) (store : List DBArticle)
       (run : PagRun),
       fetchHeadlinesPaginated api2 perPage2 s e mp fuel2 = some run →
       run.raised = false →
       (finishPag run.frames).rows.isEmpty = false →
       fetchAndStoreNewsPaginated api2 perPage2 s e mp fuel2 cfg store
         = some (⟨true, (createNewsArticles (finishPag run.frames)).length,
                  (bulkInsertNewsArticles cfg store
                    (createNewsArticles (finishPag run.frames))).1.insertedCount,
                  .completed, false⟩,
                 (bulkInsertNewsArticles cfg store
                   (createNewsArticles (finishPag run.frames))).2))
  ∧ (∀ (rows : List Row) (b : Bool), createNewsArticles ⟨rows, b, false⟩ = []) := by
  refine ⟨?_, ?_, ?_⟩
  · rw [pagLoop]
    simp [hguard, happ, hne, hlen, hts]
  · intro api2 perPage2 s e mp fuel2 cfg store run hrun hraised hnonempty
    rw [fetchAndStoreNewsPaginated, hrun]
    simp [hraised, hnonempty, completeFetchLogStatus]
  · intro rows b
    simp [createNewsArticles]

/-- Witness for no_ts_column_truncates_run: a one-row page without the
versionCreated column stops the loop with the page retained in the
returned frame, and the run completes with success and a completed fetch
log, storing nothing from that page. -/
theorem no_ts_column_truncates_run_witness :
    pagLoop apiC5 1 100 none (4 + 1) 0 0 [] [] 0 []
      = some ⟨[⟨[⟨"a", 5, "h"⟩], true, false⟩], .noTsColumn, 1, 1, false, [(0, 100)]⟩
  ∧ fetchAndStoreNewsPaginated apiC5 1 0 100 none 5 simOff []
      = some (⟨true, 0, 0, .completed, false⟩, []) := by
  constructor
  · have h := (no_ts_column_truncates_run apiC5 1 100 none 4 0 0 [] [] 0 []
      ⟨[⟨"a", 5, "h"⟩], true, false⟩ rfl rfl rfl (by decide) rfl).1
    rw [h]
    rfl
  · have h := (no_ts_column_truncates_run apiC5 1 100 none 4 0 0 [] [] 0 []
      ⟨[⟨"a", 5, "h"⟩], true, false⟩ rfl rfl rfl (by decide) rfl).2.1
      apiC5 1 0 100 none 5 simOff []
      ⟨[⟨[⟨"a", 5, "h"⟩], true, false⟩], .noTsColumn, 1, 1, false, [(0, 100)]⟩
      rfl rfl rfl
    rw [h]
    rfl

/-- Claim C5 counterexample: a run whose single (non-empty) page lacks the
timestamp column ends with the fetch log completed (status completed, no
error) and a success result — it is not marked failed with a descriptive
error as the claim states; the page's rows are dropped at article
conversion, so the store stays empty. -/
theorem no_ts_column_run_reported_success :
    fetchAndStoreNewsPaginated apiC5 1 0 100 none 5 simOff []
      = some (⟨true, 0, 0, .completed, false⟩, [])
  ∧ LogStatus.completed ≠ LogStatus.failed :=
  ⟨rfl, by decide⟩

/-- Claim C6 (amended): an empty first page makes the pagination
orchestrator terminate its loop normally and return an empty DataFrame
(not the None failure value), but the caller fetch_and_store_news_paginated
treats the empty result as "no data", completes the fetch log with an
error message (status failed) and reports success = False. -/
theorem empty_first_page_marks_run_failed (api : Int → Int → Option Frame)
    (perPage : Nat) (s e : Int) (mp : Option Nat) (fuel : Nat)
    (cfg : SimSettings) (store : List DBArticle) (page : Frame)
    (hguard : maxPagesHit mp 1 = false)
    (happ : api s e = some page)
    (hempty : page.rows.isEmpty = true) :
    fetchHeadlinesPaginated api perPage s e mp (fuel + 1)
      = some ⟨[], .noData, 1, 1, false, [(s, e)]⟩
  ∧ pagOutput ⟨[], .noData, 1, 1, false, [(s, e)]⟩ = some ⟨[], false, false⟩
  ∧ fetchAndStoreNewsPaginated api perPage s e mp (fuel + 1) cfg store
      = some (⟨false, 0, 0, .failed, true⟩, store) := by
  have hloop : fetchHeadlinesPaginated api perPage s e mp (fuel + 1)
      = some ⟨[], .noData, 1, 1, false, [(s, e)]⟩ := by
    rw [fetchHeadlinesPaginated, pagLoop]
    simp [hguard, happ, hempty]
  refine ⟨hloop, rfl, ?_⟩
  rw [fetchAndStoreNewsPaginated, hloop]
  simp [finishPag, completeFetchLogStatus]

/-- Witness for empty_first_page_marks_run_failed on the always-empty
source. -/
theorem empty_first_page_marks_run_failed_witness :
    fetchHeadlinesPaginated apiEmpty 100 0 1000 none (2 + 1)
      = some ⟨[], .noData, 1, 1, false, [(0, 1000)]⟩
  ∧ fetchAndStoreNewsPaginated apiEmpty 100 0 1000 none (2 + 1) simOff []
      = some (⟨false, 0, 0, .failed, true⟩, []) := by
  obtain ⟨h1, -, h3⟩ := empty_first_page_marks_run_failed apiEmpty 100 0 1000 none 2
    simOff [] ⟨[], true, true⟩ rfl rfl rfl
  exact ⟨h1, h3⟩

/-- Claim C6 counterexample: with an empty first page the run is reported
as a failure — success is False and the fetch log status is failed, not
success as the claim states. -/
theorem empty_first_page_reported_failure :
    fetchAndStoreNewsPaginated apiEmpty 100 0 1000 none 3 simOff []
      = some (⟨false, 0, 0, .failed, true⟩, [])
  ∧ (⟨false, 0, 0, .failed, true⟩ : MainResult).success ≠ true :=
  ⟨rfl, by decide⟩

/-- The deduplicated page is a subset of the raw page. -/
theorem pagFiltered_subset (page : Frame) (seen : List String) :
    ∀ r ∈ pagFiltered page seen, r ∈ page.rows := by
  intro r hr
  rw [pagFiltered] at hr
  split at hr
  · exact List.mem_of_mem_filter hr
  · exact hr

/-- With a non-zero max_pages m, the pagination loop stops by itself
within m fetches: entered with the invariant calls = pageCount ≤ m and
enough fuel, it returns a run with at most m API calls. -/
theorem pagLoop_maxPages_stops (api : Int → Int → Option Frame) (perPage : Nat)
    (endDate : Int) (m : Nat) (hm : m ≠ 0) :
    ∀ (fuel pageCount : Nat) (cs : Int) (seen : List String) (frames : List Frame)
      (calls : Nat) (windows : List (Int × Int)),
    m < fuel + pageCount → pageCount ≤ m → calls = pageCount →
    ∃ run, pagLoop api perPage endDate (some m) fuel cs pageCount seen frames calls
        windows = some run ∧ run.calls ≤ m := by
  intro fuel
  induction fuel with
  | zero =>
    intro pageCount cs seen frames calls windows h1 h2 h3
    omega
  | succ fuel ih =>
    intro pageCount cs seen frames calls windows h1 h2 h3
    by_cases hg : maxPagesHit (some m) (pageCount + 1) = true
    · rw [pagLoop]
      simp [hg]
      omega
    · have hpc : pageCount + 1 ≤ m := by
        rw [maxPagesHit] at hg
        simp [hm] at hg
        omega
      cases hpage : api cs endDate with
      | none =>
        rw [pagLoop]
        simp [hg, hpage]
        omega
      | some page =>
        by_cases hempty : page.rows.isEmpty = true
        · rw [pagLoop]
          simp [hg, hpage, hempty]
          omega
        · by_cases hlen : page.rows.length < perPage
          · rw [pagLoop]
            simp [hg, hpage, hempty, hlen]
            omega
          · by_cases hts : page.hasVersionCreatedCol = true
            · cases hmin : ((pagFiltered page seen).map Row.versionCreated).min? with
              | none =>
                rw [pagLoop]
                simp [hg, hpage, hempty, hlen, hts, hmin]
                omega
              | some oldest =>
                by_cases hge : oldest + 1 ≥ endDate
                · rw [pagLoop]
                  simp [hg, hpage, hempty, hlen, hts, hmin, hge]
                  omega
                · rw [pagLoop]
                  simp only [hg, hpage, hempty, hlen, hts, hmin, hge, Bool.false_eq_true,
                    if_false, if_true, ite_false, ite_true]
                  exact ih (pageCount + 1) (oldest + 1) (pagSeen2 page seen)
                    (pagFrames2 page seen frames) (calls + 1) (windows ++ [(cs, endDate)])
                    (by omega) hpc (by omega)
            · rw [pagLoop]
              simp [hg, hpage, hempty, hlen, hts]
              omega

/-- With a non-zero max_pages m, the backfill loop stops by itself within
m fetches. -/
theorem backLoop_maxPages_stops (api : Int → Int → Option Frame) (perPage : Nat)
    (startDate : Int) (m : Nat) (hm : m ≠ 0) :
    ∀ (fuel pageCount : Nat) (ce : Int) (seen : List String) (frames : List Frame)
      (calls : Nat) (windows : List (Int × Int)),
    m < fuel + pageCount → pageCount ≤ m → calls = pageCount →
    ∃ run, backLoop api perPage startDate (some m) fuel ce pageCount seen frames calls
        windows = some run ∧ run.calls ≤ m := by
  intro fuel
  induction fuel with
  | zero =>
    intro pageCount ce seen frames calls windows h1 h2 h3
    omega
  | succ fuel ih =>
    intro pageCount ce seen frames calls windows h1 h2 h3
    by_cases hg : maxPagesHit (some m) (pageCount + 1) = true
    · rw [backLoop]
      simp [hg]
      omega
    · have hpc : pageCount + 1 ≤ m := by
        rw [maxPagesHit] at hg
        simp [hm] at hg
        omega
      cases hpage : api startDate ce with
      | none =>
        rw [backLoop]
        simp [hg, hpage]
        omega
      | some page =>
        by_cases hempty : page.rows.isEmpty = true
        · rw [backLoop]
          simp [hg, hpage, hempty]
          omega
        · by_cases hnear : (decide (page.rows.length < perPage)
              && !(decide (ce > startDate + 3600))) = true
          · rw [backLoop]
            simp only [hg, hpage, hempty, hnear, Bool.false_eq_true, if_false, if_true,
              ite_false, ite_true]
            simp [hnear]
            omega
          · by_cases hts : (page.hasVersionCreatedCol
                && !((pagFiltered page seen).isEmpty)) = true
            · cases hmin : ((pagFiltered page seen).map Row.versionCreated).min? with
              | none =>
                rw [backLoop]
                simp [hg, hpage, hempty, hnear, hts, hmin]
                omega
              | some oldest =>
                by_cases hle : oldest - 1 ≤ startDate
                · rw [backLoop]
                  simp [hg, hpage, hempty, hnear, hts, hmin, hle]
                  omega
                · rw [backLoop]
                  simp [hg, hpage, hempty, hnear, hts, hmin, hle]
                  exact ih (pageCount + 1) (oldest - 1) (pagSeen2 page seen)
                    (pagFrames2 page seen frames) (calls + 1)
                    (windows ++ [(startDate, ce)]) (by omega) hpc (by omega)
            · rw [backLoop]
              simp [hg, hpage, hempty, hnear, hts]
              omega

/-- Without a max_pages limit, the pagination loop still terminates for
any source whose pages stay inside the requested window: the cursor
strictly advances, so fuel beyond the width of the window is never
exhausted. -/
theorem pagLoop_inRange_total (api : Int → Int → Option Frame) (perPage : Nat)
    (endDate : Int)
    (hapi : ∀ s e f, api s e = some f →
      ∀ r ∈ f.rows, s ≤ r.versionCreated ∧ r.versionCreated ≤ e) :
    ∀ (fuel : Nat) (cs : Int), (endDate - cs).toNat < fuel →
    ∀ (pageCount : Nat) (seen : List String) (frames : List Frame) (calls : Nat)
      (windows : List (Int × Int)),
    (pagLoop api perPage endDate none fuel cs pageCount seen frames calls
      windows).isSome := by
  intro fuel
  induction fuel with
  | zero =>
    intro cs h
    omega
  | succ fuel ih =>
    intro cs h pageCount seen frames calls windows
    have hg : maxPagesHit none (pageCount + 1) = false := rfl
    cases hpage : api cs endDate with
    | none =>
      rw [pagLoop]
      simp [hg, hpage]
    | some page =>
      by_cases hempty : page.rows.isEmpty = true
      · rw [pagLoop]
        simp [hg, hpage, hempty]
      · by_cases hlen : page.rows.length < perPage
        · rw [pagLoop]
          simp [hg, hpage, hempty, hlen]
        · by_cases hts : page.hasVersionCreatedCol = true
          · cases hmin : ((pagFiltered page seen).map Row.versionCreated).min? with
            | none =>
              rw [pagLoop]
              simp [hg, hpage, hempty, hlen, hts, hmin]
            | some oldest =>
              by_cases hge : oldest + 1 ≥ endDate
              · rw [pagLoop]
                simp [hg, hpage, hempty, hlen, hts, hmin, hge]
              · obtain ⟨r, hrf, hre⟩ := List.mem_map.1 (intMinMem hmin)
                have hrange := hapi cs endDate page hpage r
                  (pagFiltered_subset page seen r hrf)
                rw [pagLoop]
                simp [hg, hpage, hempty, hlen, hts, hmin, hge]
                exact ih (oldest + 1) (by omega) (pageCount + 1) (pagSeen2 page seen)
                  (pagFrames2 page seen frames) (calls + 1) (windows ++ [(cs, endDate)])
          · rw [pagLoop]
            simp [hg, hpage, hempty, hlen, hts]

/-- Without a max_pages limit, the backfill loop still terminates for any
source whose pages stay inside the requested window: the cursor strictly
retreats toward start_date. -/
theorem backLoop_inRange_total (api : Int → Int → Option Frame) (perPage : Nat)
    (startDate : Int)
    (hapi : ∀ s e f, api s e = some f →
      ∀ r ∈ f.rows, s ≤ r.versionCreated ∧ r.versionCreated ≤ e) :
    ∀ (fuel : Nat) (ce : Int), (ce - startDate).toNat < fuel →
    ∀ (pageCount : Nat) (seen : List String) (frames : List Frame) (calls : Nat)
      (windows : List (Int × Int)),
    (backLoop api perPage startDate none fuel ce pageCount seen frames calls
      windows).isSome := by
  intro fuel
  induction fuel with
  | zero =>
    intro ce h
    omega
  | succ fuel ih =>
    intro ce h pageCount seen frames calls windows
    have hg : maxPagesHit none (pageCount + 1) = false := rfl
    cases hpage : api startDate ce with
    | none =>
      rw [backLoop]
      simp [hg, hpage]
    | some page =>
      by_cases hempty : page.rows.isEmpty = true
      · rw [backLoop]
        simp [hg, hpage, hempty]
      · by_cases hnear : (decide (page.rows.length < perPage)
            && !(decide (ce > startDate + 3600))) = true
        · rw [backLoop]
          simp only [hg, hpage, hempty, hnear, Bool.false_eq_true, if_false, if_true,
            ite_false, ite_true]
          simp [hnear]
        · by_cases hts : (page.hasVersionCreatedCol
              && !((pagFiltered page seen).isEmpty)) = true
          · cases hmin : ((pagFiltered page seen).map Row.versionCreated).min? with
            | none =>
              rw [backLoop]
              simp [hg, hpage, hempty, hnear, hts, hmin]
            | some oldest =>
              by_cases hle : oldest - 1 ≤ startDate
              · rw [backLoop]
                simp [hg, hpage, hempty, hnear, hts, hmin, hle]
              · obtain ⟨r, hrf, hre⟩ := List.mem_map.1 (intMinMem hmin)
                have hrange := hapi startDate ce page hpage r
                  (pagFiltered_subset page seen r hrf)
                rw [backLoop]
                simp [hg, hpage, hempty, hnear, hts, hmin, hle]
                exact ih (oldest - 1) (by omega) (pageCount + 1) (pagSeen2 page seen)
                  (pagFrames2 page seen frames) (calls + 1)
                  (windows ++ [(startDate, ce)])
          · rw [backLoop]
            simp [hg, hpage, hempty, hnear, hts]
/-- Claim C4: with a non-zero configured max_pages m, both orchestrators
stop after at most m page fetches (fuel m + 1 is then always enough); with
no max_pages, both still terminate for every source whose pages stay
inside the requested window — fuel exceeding the window width in seconds
is never exhausted, because the cursor strictly advances (respectively
retreats) each iteration until it crosses the boundary. -/
theorem orchestrators_terminate (api : Int → Int → Option Frame) (perPage : Nat)
    (startDate endDate : Int) (m : Nat) (fuel : Nat) :
    (m ≠ 0 → ∃ run, fetchHeadlinesPaginated api perPage startDate endDate (some m)
        (m + 1) = some run ∧ run.calls ≤ m)
  ∧ (m ≠ 0 → ∃ run, fetchHeadlinesBackfill api perPage startDate endDate (some m)
        (m + 1) = some run ∧ run.calls ≤ m)
  ∧ ((∀ s e f, api s e = some f →
        ∀ r ∈ f.rows, s ≤ r.versionCreated ∧ r.versionCreated ≤ e) →
      (endDate - startDate).toNat < fuel →
      (fetchHeadlinesPaginated api perPage startDate endDate none fuel).isSome
    ∧ (fetchHeadlinesBackfill api perPage startDate endDate none fuel).isSome) := by
  refine ⟨?_, ?_, ?_⟩
  · intro hm
    exact pagLoop_maxPages_stops api perPage endDate m hm (m + 1) 0 startDate [] [] 0 []
      (by omega) (by omega) rfl
  · intro hm
    exact backLoop_maxPages_stops api perPage startDate m hm (m + 1) 0 endDate [] [] 0 []
      (by omega) (by omega) rfl
  · intro hapi hfuel
    exact ⟨pagLoop_inRange_total api perPage endDate hapi fuel startDate hfuel 0 [] [] 0 [],
      backLoop_inRange_total api perPage startDate hapi fuel endDate hfuel 0 [] [] 0 []⟩

/-- Witness for orchestrators_terminate: with max_pages 2 and a source
that always fails, and without max_pages over an always-empty in-range
source, the runs complete. -/
theorem orchestrators_terminate_witness :
    (fetchHeadlinesPaginated apiNone 10 0 100 (some 2) 3).isSome = true
  ∧ (fetchHeadlinesBackfill apiNone 10 0 100 (some 2) 3).isSome = true
  ∧ (fetchHeadlinesPaginated apiEmpty 10 0 100 none 101).isSome = true
  ∧ (fetchHeadlinesBackfill apiEmpty 10 0 100 none 101).isSome = true := by
  have hapi : ∀ s e f, apiEmpty s e = some f →
      ∀ r ∈ f.rows, s ≤ r.versionCreated ∧ r.versionCreated ≤ e := by
    intro s e f hf r hr
    rw [apiEmpty] at hf
    cases hf
    simp at hr
  obtain ⟨run1, he1, -⟩ := (orchestrators_terminate apiNone 10 0 100 2 101).1 (by decide)
  obtain ⟨run2, he2, -⟩ := (orchestrators_terminate apiNone 10 0 100 2 101).2.1 (by decide)
  obtain ⟨h3, h4⟩ := (orchestrators_terminate apiEmpty 10 0 100 2 101).2.2 hapi (by decide)
  exact ⟨by rw [he1]; rfl, by rw [he2]; rfl, h3, h4⟩
